import Mathlib

/-!
Shallow embedding of the Hope VPN Telegram bot (`src/bot.py`) for checking the
specification's claims.

Modelling conventions:
* Python strings are Lean `String`s; character-level operations (`strip`,
  `lower`, `split`, `splitlines`, `startswith`, `replace`, `in`) are modelled
  on `List Char` with ASCII semantics (the callback tokens, status strings and
  metric names handled by the bot are ASCII).
* Python dicts are insertion-ordered association lists (`dictSet`/`dictGet`).
* JSON payloads decoded by `response.json()` are a `JsonValue` inductive;
  numbers are modelled as integers (all numeric JSON fields the bot consumes
  are counters).  `float(...)` conversion inside the metrics parser is
  modelled by keeping the accepted numeric literal itself, since every claim
  about the parser concerns which sample is kept, never float arithmetic.
* Network and Telegram effects are inputs: each handler takes the outcome of
  the calls it performs (an `ApiOutcome`, an `EditResult`, ...) and returns
  the replies, the next conversation state and the updated session, so the
  handlers are total functions and "never propagates an exception" is
  expressed by `Except`.
-/

namespace HopeVpnBot

/-! ### Python string primitives -/

/-- Python ASCII whitespace, as recognised by `str.strip()` and `str.split()`:
space, tab, newline, carriage return, vertical tab, form feed. -/
def pyIsSpace (c : Char) : Bool :=
  c = ' ' || c = '\t' || c = '\n' || c = '\r' || c = '\x0b' || c = '\x0c'

/-- Python `s.strip()` on a character list: drop whitespace from both ends. -/
def pyStripL (l : List Char) : List Char :=
  ((l.dropWhile pyIsSpace).reverse.dropWhile pyIsSpace).reverse

/-- Python `s.strip()`. -/
def pyStrip (s : String) : String := ⟨pyStripL s.data⟩

/-- ASCII lower-casing of one character (Python `str.lower()`, restricted to
the ASCII letters actually produced by the backend).  Written as an explicit
26-way case split so that it is transparent to the kernel. -/
def pyToLower (c : Char) : Char :=
  if c = 'A' then 'a' else if c = 'B' then 'b' else if c = 'C' then 'c'
  else if c = 'D' then 'd' else if c = 'E' then 'e' else if c = 'F' then 'f'
  else if c = 'G' then 'g' else if c = 'H' then 'h' else if c = 'I' then 'i'
  else if c = 'J' then 'j' else if c = 'K' then 'k' else if c = 'L' then 'l'
  else if c = 'M' then 'm' else if c = 'N' then 'n' else if c = 'O' then 'o'
  else if c = 'P' then 'p' else if c = 'Q' then 'q' else if c = 'R' then 'r'
  else if c = 'S' then 's' else if c = 'T' then 't' else if c = 'U' then 'u'
  else if c = 'V' then 'v' else if c = 'W' then 'w' else if c = 'X' then 'x'
  else if c = 'Y' then 'y' else if c = 'Z' then 'z' else c

/-- `str.lower()` on a character list. -/
def pyLowerL (l : List Char) : List Char := l.map pyToLower

/-- Python `s.lower()`. -/
def pyLower (s : String) : String := ⟨pyLowerL s.data⟩

/-- The idiom `(x or "").strip().lower()` used throughout the normalizer. -/
def pyStripLower (s : String) : String := ⟨pyLowerL (pyStripL s.data)⟩

/-- If `p` is a literal prefix of `l`, return the rest of `l` after `p`. -/
def matchPre : List Char → List Char → Option (List Char)
  | [], l => some l
  | _ :: _, [] => none
  | p :: ps, c :: cs => if p = c then matchPre ps cs else none

/-- Python `s.startswith(p)` (arguments: the candidate p, then the string). -/
def startsWithL (p l : List Char) : Bool := (matchPre p l).isSome

/-- Python `s.startswith(p)` on `String`s. -/
def pyStartswith (s p : String) : Bool := startsWithL p.data s.data

/-- Python substring test `needle in hay` on character lists. -/
def containsL (needle : List Char) : List Char → Bool
  | [] => needle.isEmpty
  | c :: cs => (matchPre needle (c :: cs)).isSome || containsL needle cs

/-- Python substring test `needle in hay`. -/
def pyContains (hay needle : String) : Bool := containsL needle.data hay.data

/-- Fuel-indexed worker for `s.replace(old, "")`: scans left to right and
removes every (non-overlapping) occurrence of `old`.  The fuel is the length
of the scanned list, which bounds the number of steps. -/
def replaceEmptyFuel (old : List Char) : Nat → List Char → List Char
  | _, [] => []
  | 0, l => l
  | fuel + 1, c :: cs =>
    match matchPre old (c :: cs) with
    | some rest =>
      if old.isEmpty then c :: replaceEmptyFuel old fuel cs
      else replaceEmptyFuel old fuel rest
    | none => c :: replaceEmptyFuel old fuel cs

/-- Python `s.replace(old, "")`: removes every occurrence of `old`.  This is
how the controller extracts the id from a callback token (`data.replace(CB_X,
"")`). -/
def pyReplaceEmpty (s old : String) : String :=
  ⟨replaceEmptyFuel old.data s.data.length s.data⟩

/-- Python line-break characters recognised by `str.splitlines()`. -/
def pyIsLineBreak (c : Char) : Bool :=
  c = '\n' || c = '\r' || c = '\x0b' || c = '\x0c' ||
  c = Char.ofNat 28 || c = Char.ofNat 29 || c = Char.ofNat 30 ||
  c = Char.ofNat 133 || c = Char.ofNat 8232 || c = Char.ofNat 8233

/-- Worker for `str.splitlines()`: `cur` is the current line, reversed.  A
final line terminator does not produce a trailing empty line. -/
def splitLinesGo : List Char → List Char → List (List Char)
  | [], cur => [cur.reverse]
  | '\r' :: '\n' :: rest, cur =>
    match rest with
    | [] => [cur.reverse]
    | _ => cur.reverse :: splitLinesGo rest []
  | c :: rest, cur =>
    if pyIsLineBreak c then
      match rest with
      | [] => [cur.reverse]
      | _ => cur.reverse :: splitLinesGo rest []
    else splitLinesGo rest (c :: cur)

/-- Python `s.splitlines()` on a character list (empty string gives `[]`). -/
def pySplitlinesL (l : List Char) : List (List Char) :=
  match l with
  | [] => []
  | _ => splitLinesGo l []

/-- Worker for whitespace `str.split()`: `cur` is the current token,
reversed; empty tokens are never produced. -/
def splitWsGo : List Char → List Char → List (List Char)
  | [], cur => if cur.isEmpty then [] else [cur.reverse]
  | c :: rest, cur =>
    if pyIsSpace c then
      if cur.isEmpty then splitWsGo rest [] else cur.reverse :: splitWsGo rest []
    else splitWsGo rest (c :: cur)

/-- Python `s.split()` (split on whitespace runs). -/
def pySplitWsL (l : List Char) : List (List Char) := splitWsGo l []

/-- Assemble the result of `s.split(None, 1)` from the first token and the
remainder after the separator run. -/
def splitOnceTail (tok : List Char) : List Char → List (List Char)
  | [] => [tok]
  | r :: rs => [tok, r :: rs]

/-- Worker for `s.split(None, 1)` after leading whitespace is dropped. -/
def splitOnceCore : List Char → List (List Char)
  | [] => []
  | c :: cs =>
    splitOnceTail ((c :: cs).takeWhile (fun x => !pyIsSpace x))
      (((c :: cs).dropWhile (fun x => !pyIsSpace x)).dropWhile pyIsSpace)

/-- Python `s.split(None, 1)`: at most one split; the remainder keeps its
internal spacing but the separator run after the first token is consumed. -/
def pySplitOnceL (l : List Char) : List (List Char) :=
  splitOnceCore (l.dropWhile pyIsSpace)

/-! ### Python `float(...)` acceptance

`_parse_prometheus_metrics` calls `float(value_str)` and drops the sample on
`ValueError`.  `isPyFloat` models which ASCII strings `float` accepts:
optional sign, then `inf`/`infinity`/`nan` (case-insensitive) or a decimal
mantissa with optional exponent, with underscores allowed between digits. -/

/-- Digit run with underscores, after its first digit: each underscore must
be followed by a digit, and the run must not end in an underscore. -/
def digitsUndAux : List Char → Bool
  | [] => true
  | '_' :: c :: rest => c.isDigit && digitsUndAux rest
  | ['_'] => false
  | c :: rest => c.isDigit && digitsUndAux rest

/-- Non-empty digit run with underscores (no leading underscore). -/
def digitsUnd (l : List Char) : Bool :=
  match l with
  | [] => false
  | c :: rest => c.isDigit && digitsUndAux rest

/-- Decimal mantissa: `ddd`, `ddd.`, `.ddd` or `ddd.ddd`. -/
def floatMantissa (l : List Char) : Bool :=
  let intPart := l.takeWhile (fun c => c ≠ '.')
  let rest := l.dropWhile (fun c => c ≠ '.')
  match rest with
  | [] => digitsUnd intPart
  | _ :: frac =>
    if intPart.isEmpty then digitsUnd frac
    else digitsUnd intPart && (frac.isEmpty || digitsUnd frac)

/-- Strip one optional leading sign, then test the body. -/
def floatSigned (l : List Char) (body : List Char → Bool) : Bool :=
  match l with
  | '+' :: rest => body rest
  | '-' :: rest => body rest
  | _ => body l

/-- Mantissa-with-exponent body of a float literal (already lower-cased). -/
def floatBody (l : List Char) : Bool :=
  let low := pyLowerL l
  low = "inf".data || low = "infinity".data || low = "nan".data ||
    (let mant := low.takeWhile (fun c => c ≠ 'e')
     let rest := low.dropWhile (fun c => c ≠ 'e')
     match rest with
     | [] => floatMantissa mant
     | _ :: ex => floatMantissa mant && floatSigned ex digitsUnd)

/-- Python `float(s)` acceptance (ASCII). -/
def isPyFloat (l : List Char) : Bool :=
  let t := pyStripL l
  match t with
  | [] => false
  | _ => floatSigned t floatBody

/-! ### Python dicts as insertion-ordered association lists -/

/-- Python dict assignment `m[k] = v`: overwrite in place, else append. -/
def dictSet {α : Type} (m : List (String × α)) (k : String) (v : α) :
    List (String × α) :=
  match m with
  | [] => [(k, v)]
  | (k', v') :: rest => if k' = k then (k, v) :: rest else (k', v') :: dictSet rest k v

/-- Python `m.get(k)` (also used for `k in m` via `isSome`). -/
def dictGet {α : Type} (m : List (String × α)) (k : String) : Option α :=
  match m with
  | [] => none
  | (k', v') :: rest => if k' = k then some v' else dictGet rest k

/-! ### Status/Metrics Normalizer (`bot.py` lines 68-121) -/

def STATUS_READY : List String := ["active", "running"]
def STATUS_ISSUE : List String := ["error", "failed", "deleted"]
def STATUS_SETUP : List String :=
  ["creating", "provisioning", "booting", "pending", "starting"]

/-- `_status_display(api_status)`: return (emoji, label) for an API status. -/
def _status_display (api_status : String) : String × String :=
  let s := pyStripLower api_status
  if s ∈ STATUS_READY then ("✅", "Ready")
  else if s ∈ STATUS_ISSUE then ("❌", "Issue")
  else if s ∈ STATUS_SETUP then ("⏳", "Setting up")
  else ("⚪", if api_status = "" then "Unknown" else api_status)

/-- A server record as consumed by the bot (`server.get(...)` fields;
`none` models an absent or JSON-null field). -/
structure Server where
  id : String := ""
  label : Option String := none
  ipAddress : Option String := none
  status : Option String := none
  vpnInstallStatus : Option String := none
  vpnInstallMessage : Option String := none
deriving DecidableEq, Repr

/-- `_vpn_ready_label(server)`: return (emoji, label) for VPN readiness. -/
def _vpn_ready_label (server : Server) : String × String :=
  let vpn_status := pyStripLower (server.vpnInstallStatus.getD "")
  let vpn_msg := pyStripLower (server.vpnInstallMessage.getD "")
  let api_status := pyStripLower (server.status.getD "")
  if vpn_status ∈ ["installed", "ready"] ∨ pyContains vpn_msg "verified" then
    ("✅", "Ready")
  else if vpn_status ∈ ["installing", "pending", "booting", "creating", "provisioning"]
      ∨ api_status ∈ STATUS_SETUP then
    ("⏳", "Loading")
  else if vpn_status ∈ ["failed", "error", "not_running"] ∨ api_status ∈ STATUS_ISSUE then
    ("❌", "Error")
  else ("⏳", "Loading")

/-- One step of `_parse_prometheus_metrics`'s loop: fold one raw line into the
accumulated metrics dict.  Mirrors the loop body: strip the line, skip it if
empty or starting with `#`, split once, truncate the name at the first `{`,
take the last whitespace token of the remainder, keep it only if `float`
accepts it. -/
def parseMetricsLine (metrics : List (String × String)) (rawLine : List Char) :
    List (String × String) :=
  let line := pyStripL rawLine
  if line.isEmpty || startsWithL "#".data line then metrics
  else
    match pySplitOnceL line with
    | [name0, rest] =>
      let name := if containsL "\x7b".data name0 then name0.takeWhile (fun c => c ≠ '{') else name0
      let value_str := (pySplitWsL rest).getLastD []
      if isPyFloat value_str then dictSet metrics ⟨name⟩ ⟨value_str⟩ else metrics
    | _ => metrics

/-- `_parse_prometheus_metrics(raw)`: parse Prometheus text into a dict of
metric -> value (last sample).  Values are represented by the accepted
numeric literal (see module comment). -/
def _parse_prometheus_metrics (raw : String) : List (String × String) :=
  if raw = "" || pyStrip raw = "" then []
  else (pySplitlinesL raw.data).foldl parseMetricsLine []

/-! ### API Gateway Client (`bot.py` lines 197-245) -/

/-- A decoded JSON value (numbers restricted to integers, which covers every
numeric field the bot reads). -/
inductive JsonValue where
  | jnull
  | jbool (b : Bool)
  | jnum (n : Int)
  | jstr (s : String)
  | jarr (elems : List JsonValue)
  | jobj (fields : List (String × JsonValue))
deriving Repr

/-- Python truthiness of a decoded JSON value. -/
def pyTruthy : JsonValue → Bool
  | .jnull => false
  | .jbool b => b
  | .jnum n => n != 0
  | .jstr s => s ≠ ""
  | .jarr es => !es.isEmpty
  | .jobj fs => !fs.isEmpty

/-- Python `str(...)` of a decoded JSON value (the error-message field is a
string in practice; the other cases follow Python's repr conventions, with
containers abbreviated). -/
def pyStrVal : JsonValue → String
  | .jstr s => s
  | .jnull => "None"
  | .jbool true => "True"
  | .jbool false => "False"
  | .jnum n => toString n
  | .jarr _ => "[...]"
  | .jobj _ => "\x7b...\x7d"

/-- Python truthiness of `Optional[str]` (`None` and `""` are falsy). -/
def pyTruthyStrOpt : Option String → Bool
  | none => false
  | some s => s ≠ ""

/-- Python truthiness of an optional decoded JSON payload (`if not resp`). -/
def pyTruthyJsonOpt : Option JsonValue → Bool
  | none => false
  | some v => pyTruthy v

/-- Python `s[:n]`. -/
def pyTake (n : Nat) (s : String) : String := ⟨s.data.take n⟩

/-- A non-2xx HTTP response as seen by the error path: status code, raw body
text, and the result of `response.json()` (`none` models a body that fails to
parse, i.e. `response.json()` raising). -/
structure HttpErrorResponse where
  status : Nat
  text : String
  json : Option JsonValue

/-- The outcome of one HTTP request, covering the four `except` arms of
`api_request` / `api_request_with_error`: a 2xx response with decoded JSON, a
non-2xx response (`httpx.HTTPStatusError`), a connect/read failure
(`httpx.ConnectError`/`ConnectTimeout`/`ReadTimeout`), or any other exception
(with its `str(e)`). -/
inductive ApiOutcome where
  | success (json : JsonValue)
  | httpStatusError (resp : HttpErrorResponse)
  | transportError
  | otherError (msg : String)

/-- `api_request(...)`: returns the decoded payload, or `None` on any
failure.  Total by construction: no exception reaches the caller. -/
def api_request : ApiOutcome → Option JsonValue
  | .success j => some j
  | .httpStatusError _ => none
  | .transportError => none
  | .otherError _ => none

/-- `_parse_error_message(response)`: the JSON body's truthy `message` field
if present, else the first 200 characters of the body text, else
`"HTTP <status>"`. -/
def _parse_error_message (resp : HttpErrorResponse) : String :=
  match resp.json with
  | some (JsonValue.jobj fields) =>
    match dictGet fields "message" with
    | some v =>
      if pyTruthy v then pyStrVal v
      else if resp.text ≠ "" then pyTake 200 resp.text
      else "HTTP " ++ toString resp.status
    | none =>
      if resp.text ≠ "" then pyTake 200 resp.text
      else "HTTP " ++ toString resp.status
  | _ =>
    if resp.text ≠ "" then pyTake 200 resp.text
    else "HTTP " ++ toString resp.status

/-- `api_request_with_error(...)`: like `api_request` but returns
`(data, error_message)`.  Total by construction. -/
def api_request_with_error : ApiOutcome → Option JsonValue × Option String
  | .success j => (some j, none)
  | .httpStatusError r => (none, some (_parse_error_message r))
  | .transportError => (none, some "Could not reach the API. Check it is running.")
  | .otherError m => (none, some (if m = "" then "Request failed" else m))

/-! ### Session store and conversation states (`bot.py` lines 39, 379-531) -/

def SELECT_PROVIDER : Int := 0
def ENTER_TOKEN : Int := 1
def MAIN_MENU : Int := 2
def SERVER_DETAILS : Int := 3
def ACCOUNT_CONFIRM : Int := 4
/-- `telegram.ext.ConversationHandler.END`. -/
def CONVERSATION_END : Int := -1

/-- The per-user `context.user_data` mapping; each key the bot uses becomes an
optional field (`none` models an absent key). -/
structure UserData where
  user_id : Option String := none
  telegram_id : Option String := none
  provider : Option String := none
  token_action : Option String := none
  return_to : Option String := none
  selected_server_id : Option String := none
  main_menu_message_id : Option Int := none
  main_menu_chat_id : Option Int := none
deriving DecidableEq, Repr

/-- Python `x or dflt` for an optional string (`None` and `""` fall through). -/
def pyOrStr (v : Option String) (dflt : String) : String :=
  match v with
  | none => dflt
  | some s => if s = "" then dflt else s

/-- Session/state effect of `handle_provider_selection` (lines 379-406): store
the chosen provider, default `token_action` with `get("token_action") or
"add"`, then either offer replace/keep (staying in `SELECT_PROVIDER`) when the
backend already holds a token for this provider, or show the token prompt and
go to `ENTER_TOKEN`.  `provider_has_token` is the outcome of the `GET
/selections` lookup; the Telegram rendering is omitted. -/
def handle_provider_selection (ud : UserData) (callback_data : String)
    (provider_has_token : Bool) : UserData × Int :=
  let provider_name := pyReplaceEmpty callback_data "prov_"
  let ud := { ud with provider := some provider_name,
                      token_action := some (pyOrStr ud.token_action "add") }
  if provider_has_token then (ud, SELECT_PROVIDER)
  else (ud, ENTER_TOKEN)

/-- Session/state effect of the `CB_TOKEN_UPDATE` branch of
`handle_main_menu_callback` (lines 755-769): store the provider, set
`return_to`, set `token_action` to `"update"` or `"add"` depending on whether
the backend already holds a token, and go to `ENTER_TOKEN`. -/
def token_update_effect (ud : UserData) (callback_data : String)
    (has_token : Bool) : UserData × Int :=
  let provider_name := pyReplaceEmpty callback_data "token_update_"
  let ud := { ud with provider := some provider_name,
                      return_to := some "manage_tokens",
                      token_action := some (if has_token then "update" else "add") }
  (ud, ENTER_TOKEN)

/-- Session effect of the `CB_BACK_TOKENS` / `CB_ADD_PROVIDER` branches
(lines 747-753): `context.user_data.pop("return_to", None)`. -/
def pop_return_to (ud : UserData) : UserData := { ud with return_to := none }

/-- Where a handler goes after finishing: either a state value returned
directly, or a tail call into one of the two screen-rendering coroutines. -/
inductive NextScreen where
  | state (s : Int)
  | showManageTokens
  | showMainMenu
deriving DecidableEq, Repr

/-- The observable result of one text-message turn: the texts replied, where
the conversation goes next, and the updated session. -/
structure TurnReply where
  replies : List String
  next : NextScreen
  ud : UserData
deriving DecidableEq, Repr

/-- Python `str.title()` (ASCII): capitalise the first letter of each
alphabetic run. -/
def pyTitleGo : Bool → List Char → List Char
  | _, [] => []
  | prevAlpha, c :: rest =>
    (if c.isAlpha then (if prevAlpha then pyToLower c else c.toUpper) else c) ::
      pyTitleGo c.isAlpha rest

/-- Python `s.title()`. -/
def pyTitle (s : String) : String := ⟨pyTitleGo false s.data⟩

/-- Python `v is not None` on an optional-value lookup where a JSON `null`
decodes to Python `None`. -/
def denull : Option JsonValue → Option JsonValue
  | some JsonValue.jnull => none
  | v => v

/-- Python `int(x)` on the JSON counter fields of `/stats/aggregate`
(non-numeric values are outside every claim's scope). -/
def pyIntVal : JsonValue → Int
  | .jnum n => n
  | _ => 0

/-- `_format_global_stats(stats)` (lines 173-187): formatted stats lines,
with the `totalUsers`/`users` style field aliasing. -/
def _format_global_stats (stats : Option JsonValue) : String :=
  match stats with
  | some (JsonValue.jobj fs) =>
    let total_users :=
      match dictGet fs "totalUsers" with
      | some v => denull (some v)
      | none => denull (dictGet fs "users")
    let total_servers :=
      match dictGet fs "totalServers" with
      | some v => denull (some v)
      | none => denull (dictGet fs "servers")
    let connected :=
      match dictGet fs "connectedClients" with
      | some v => denull (some v)
      | none => denull (dictGet fs "usersConnected")
    let lines :=
      (match total_users with
       | some v => ["• Total users: " ++ toString (pyIntVal v)]
       | none => []) ++
      (match total_servers with
       | some v => ["• Total servers: " ++ toString (pyIntVal v)]
       | none => []) ++
      (match connected with
       | some v => ["• Connected via Psiphon Conduit: " ++ toString (pyIntVal v)]
       | none => [])
    String.intercalate "\n" lines
  | _ => ""

/-- `handle_token_input` (lines 488-531): strip the message text, re-prompt on
empty input, submit the token via the silent `api_request` helper, and on a
falsy response reply with the fixed failure text and stay in `ENTER_TOKEN`.
On success: per-action confirmation, pop `token_action`, fetch stats, send the
about-your-token text, then tail-call the screen indicated by `return_to`.
The two network calls are passed in as outcomes. -/
def handle_token_input (text : String) (ud : UserData)
    (post_selections : ApiOutcome) (stats_outcome : ApiOutcome) : TurnReply :=
  let token := pyStrip text
  if token = "" then
    { replies := ["Token cannot be empty."], next := .state ENTER_TOKEN, ud := ud }
  else
    let resp := api_request post_selections
    if !pyTruthyJsonOpt resp then
      { replies := ["❌ Failed to verify/save your token. Please try again or /start over."],
        next := .state ENTER_TOKEN, ud := ud }
    else
      let msg1 :=
        if ud.token_action = some "update" then "✅ Token updated successfully!"
        else "✅ Token verified successfully!"
      let ud1 := { ud with token_action := none }
      let stats := api_request stats_outcome
      let provider_name :=
        if pyTruthyStrOpt ud.provider then pyTitle (ud.provider.getD "")
        else "your provider"
      let impact_text :=
        let s := _format_global_stats stats
        if s = "" then "• Every contribution helps." else s
      let msg2 :=
        "💡 **About your token**\n\n" ++
        "We use your " ++ provider_name ++ " token only to create and manage servers.\n" ++
        "Estimated cost: ~5 EUR per month per server (billed by the provider).\n\n" ++
        "**Network stats**\n" ++ impact_text ++ "\n\n" ++
        "Your contribution helps keep the internet free and open."
      if ud1.return_to = some "manage_tokens" then
        { replies := [msg1, msg2], next := .showManageTokens, ud := ud1 }
      else
        { replies := [msg1, msg2], next := .showMainMenu, ud := ud1 }

/-! ### Main menu rendering (`bot.py` lines 533-677) -/

/-- `_build_server_list_content(servers, stats)` (the `stats` argument is
accepted and unused, as in the source). -/
def _build_server_list_content (servers : List Server) (stats : Option JsonValue) :
    String :=
  let _ := stats
  let text := "Servers (" ++ toString servers.length ++ ")\n\n"
  if servers.isEmpty then text ++ "No servers yet. Use the buttons below to create one."
  else
    let body := String.join ((List.enumFrom 1 servers).map (fun is =>
      let emoji := (_vpn_ready_label is.2).1
      let status_label := (_vpn_ready_label is.2).2
      let label0 := pyStrip (pyOrStr is.2.label (pyTake 8 is.2.id))
      let label := if label0 = "" then "Server " ++ toString is.1 else label0
      toString is.1 ++ ". " ++ label ++ " — " ++ emoji ++ " " ++ status_label ++ "\n\n"))
    pyStrip (text ++ body)

/-- Outcome of one Telegram `edit_message_text` call: success, or a raised
`telegram.error.BadRequest` with its message. -/
inductive EditResult where
  | ok
  | badRequest (message : String)
deriving DecidableEq, Repr

/-- `show_main_menu` (lines 623-677), as a total function over the outcomes of
its calls.  Reply sends are modelled as succeeding (`sent_message_id` is the
id of the freshly sent list message); `edit_result` is the outcome of
whichever `edit_message_text` call the branch performs.  The `try/except
BadRequest` of lines 653-676 swallows a "not modified" error and re-raises any
other `BadRequest`, which surfaces as `Except.error`. -/
def show_main_menu (is_callback : Bool) (ud : UserData) (chat_id : Int)
    (cb_message_id : Int) (sent_message_id : Int)
    (servers_resp : Option (List Server)) (stats : Option JsonValue)
    (edit_result : EditResult) : Except String (UserData × Int) :=
  if !pyTruthyStrOpt ud.user_id then .ok (ud, CONVERSATION_END)
  else
    match servers_resp with
    | none => .ok (ud, MAIN_MENU)
    | some servers =>
      let _text := _build_server_list_content servers stats
      if is_callback then
        if ud.main_menu_message_id.isSome ∧ ud.main_menu_chat_id = some chat_id then
          match edit_result with
          | .ok => .ok (ud, MAIN_MENU)
          | .badRequest m =>
            if pyContains (pyLower m) "not modified" then .ok (ud, MAIN_MENU)
            else .error m
        else
          match edit_result with
          | .ok =>
            .ok ({ ud with main_menu_message_id := some cb_message_id,
                           main_menu_chat_id := some chat_id }, MAIN_MENU)
          | .badRequest m =>
            if pyContains (pyLower m) "not modified" then .ok (ud, MAIN_MENU)
            else .error m
      else
        .ok ({ ud with main_menu_message_id := some sent_message_id,
                       main_menu_chat_id := some chat_id }, MAIN_MENU)

/-! ### Callback routing (`bot.py` lines 679-803 and 851-984) -/

/-- Which branch of `handle_main_menu_callback` a callback token selects, with
the id that branch extracts. -/
inductive MenuRoute where
  | refresh
  | manageServers
  | backToStart
  | createServer
  | openServer (id : String)
  | manageInfo (id : String)
  | refreshServer (id : String)
  | deleteServer (id : String)
  | manageTokens
  | addProvider
  | backTokens
  | tokenUpdate (provider : String)
  | tokenRemove (provider : String)
  | deleteAccount
  | fallthrough
deriving DecidableEq, Repr

/-- The `if/elif` dispatch of `handle_main_menu_callback` (lines 679-803), in
source order: four equality tests, then `startswith` tests against `CB_SERVER
= "srv_"`, `CB_MANAGE = "manage_"`, `CB_REFRESH_SERVER = "refresh_srv_"`,
`CB_DELETE = "del_"`, then the token-management equality and `startswith`
tests, then `CB_DELETE_ACCOUNT`.  Ids are extracted with
`data.replace(CB_X, "")`. -/
def handle_main_menu_route (data : String) : MenuRoute :=
  if data.data = "refresh".data then .refresh
  else if data.data = "manage_servers".data then .manageServers
  else if data.data = "back_main".data then .backToStart
  else if data.data = "create_server".data then .createServer
  else if startsWithL "srv_".data data.data then .openServer (pyReplaceEmpty data "srv_")
  else if startsWithL "manage_".data data.data then .manageInfo (pyReplaceEmpty data "manage_")
  else if startsWithL "refresh_srv_".data data.data then
    .refreshServer (pyReplaceEmpty data "refresh_srv_")
  else if startsWithL "del_".data data.data then .deleteServer (pyReplaceEmpty data "del_")
  else if data.data = "manage_tokens".data then .manageTokens
  else if data.data = "add_provider".data then .addProvider
  else if data.data = "back_tokens".data then .backTokens
  else if startsWithL "token_update_".data data.data then
    .tokenUpdate (pyReplaceEmpty data "token_update_")
  else if startsWithL "token_remove_".data data.data then
    .tokenRemove (pyReplaceEmpty data "token_remove_")
  else if data.data = "delete_account".data then .deleteAccount
  else .fallthrough

/-- Which branch of `handle_server_details_callback` a callback token selects,
with the id that branch extracts. -/
inductive DetailsRoute where
  | backMain
  | backDetails
  | deleteServer (id : String)
  | check (id : String)
  | vpnVerify (id : String)
  | sshKey (id : String)
  | metrics (id : String)
  | fallthrough
deriving DecidableEq, Repr

/-- The `if/elif` dispatch of `handle_server_details_callback` (lines
851-984), in source order. -/
def handle_server_details_route (data : String) : DetailsRoute :=
  if data.data = "back_main".data then .backMain
  else if data.data = "back_details".data then .backDetails
  else if startsWithL "del_".data data.data then .deleteServer (pyReplaceEmpty data "del_")
  else if startsWithL "check_".data data.data then .check (pyReplaceEmpty data "check_")
  else if startsWithL "vpn_verify_".data data.data then
    .vpnVerify (pyReplaceEmpty data "vpn_verify_")
  else if startsWithL "ssh_key_".data data.data then .sshKey (pyReplaceEmpty data "ssh_key_")
  else if startsWithL "metrics_".data data.data then .metrics (pyReplaceEmpty data "metrics_")
  else .fallthrough

/-! ### Claim-side definitions

These follow the words of the claims (not the code); they exist to be
compared with the code-side definitions above. -/

/-- The entry contributed by one line of `_parse_prometheus_metrics`, as an
option (refactoring of `parseMetricsLine`, used to state the last-sample
characterization). -/
def codeMetricsEntry (rawLine : List Char) : Option (String × String) :=
  let line := pyStripL rawLine
  if line.isEmpty || startsWithL "#".data line then none
  else
    match pySplitOnceL line with
    | [name0, rest] =>
      let name := if containsL "\x7b".data name0 then name0.takeWhile (fun c => c ≠ '{') else name0
      let value_str := (pySplitWsL rest).getLastD []
      if isPyFloat value_str then some (⟨name⟩, ⟨value_str⟩) else none
    | _ => none

/-- Per-line rule of claim C7 as literally stated: skip blank lines and lines
starting (at their first character) with `#`; for each remaining line with at
least two whitespace-delimited tokens, the name is the first token truncated
at the first `{` and the value is the last token, kept only if numeric. -/
def claimLiteralEntry (line : List Char) : Option (String × String) :=
  if (pyStripL line).isEmpty || startsWithL "#".data line then none
  else
    match pySplitWsL line with
    | first :: second :: more =>
      let name := first.takeWhile (fun c => c ≠ '{')
      let v := (second :: more).getLastD []
      if isPyFloat v then some (⟨name⟩, ⟨v⟩) else none
    | _ => none

/-- Claim C7's mapping as literally stated, over the lines of the input, with
later samples overwriting earlier ones. -/
def claimLiteralParse (raw : String) : List (String × String) :=
  ((pySplitlinesL raw.data).filterMap claimLiteralEntry).foldl
    (fun m e => dictSet m e.1 e.2) []

/-- Per-line rule of the amended claim C7: as `claimLiteralEntry`, except that
the `#` test is applied after stripping leading whitespace (a line whose first
non-whitespace character is `#` is skipped). -/
def claimAmendedEntry (line : List Char) : Option (String × String) :=
  if (pyStripL line).isEmpty || startsWithL "#".data (pyStripL line) then none
  else
    match pySplitWsL line with
    | first :: second :: more =>
      let name := first.takeWhile (fun c => c ≠ '{')
      let v := (second :: more).getLastD []
      if isPyFloat v then some (⟨name⟩, ⟨v⟩) else none
    | _ => none

/-- The amended claim C7's mapping over the lines of the input. -/
def claimAmendedParse (raw : String) : List (String × String) :=
  ((pySplitlinesL raw.data).filterMap claimAmendedEntry).foldl
    (fun m e => dictSet m e.1 e.2) []

/-- Claim C10's characterization of one binding: the value token of the last
line of the input whose parsed metric name is `n` and whose trailing token is
numeric (`none` when no such line exists). -/
def lastNumericSample (raw : String) (n : String) : Option String :=
  ((((pySplitlinesL raw.data).filterMap codeMetricsEntry).filter
      (fun e => e.1 = n)).getLast?).map (fun e => e.2)

/-- Whether a decoded error body is a JSON object with a truthy `message`
field (the condition under which `_parse_error_message` uses that field). -/
def hasTruthyMessage : Option JsonValue → Bool
  | some (JsonValue.jobj fields) =>
    match dictGet fields "message" with
    | some v => pyTruthy v
    | none => false
  | _ => false

/-! ## Theorems -/

/-! ### String-model helper lemmas -/

theorem strData_append (s t : String) : (s ++ t).data = s.data ++ t.data := by
  cases s; cases t; rfl

theorem strMk_data (s : String) : String.mk s.data = s := rfl

theorem strExt {s t : String} (h : s.data = t.data) : s = t := by
  cases s; cases t; exact congrArg String.mk h

theorem matchPre_self_append (p r : List Char) : matchPre p (p ++ r) = some r := by
  induction p with
  | nil => rfl
  | cons c cs ih => simp [matchPre, ih]

theorem replaceEmptyFuel_of_not_contains (old : List Char) :
    ∀ (l : List Char) (fuel : Nat), containsL old l = false →
      replaceEmptyFuel old fuel l = l := by
  intro l
  induction l with
  | nil => intro fuel _; cases fuel <;> rfl
  | cons c cs ih =>
    intro fuel h
    simp only [containsL, Bool.or_eq_false_iff] at h
    cases fuel with
    | zero => rfl
    | succ f =>
      rw [replaceEmptyFuel]
      rcases hm : matchPre old (c :: cs) with _ | rest
      · simp only [hm, ih f h.2]
      · exfalso; rw [hm] at h; simp at h

theorem replaceEmptyFuel_append (old i : List Char) (hold : old ≠ [])
    (h : containsL old i = false) :
    replaceEmptyFuel old (old ++ i).length (old ++ i) = i := by
  rcases old with _ | ⟨o, os⟩
  · exact absurd rfl hold
  · simp only [List.cons_append, List.length_cons]
    rw [replaceEmptyFuel]
    have hm : matchPre (o :: os) (o :: (os ++ i)) = some i := by
      rw [← List.cons_append]; exact matchPre_self_append _ _
    simp only [hm, List.isEmpty_cons]
    exact replaceEmptyFuel_of_not_contains _ _ _ h

/-- The round trip at the heart of claim C1: stripping a literal prefix `p`
off `p ++ i` with `str.replace(p, "")` gives back `i`, provided `i` does not
itself contain `p`. -/
theorem pyReplaceEmpty_pre (p i : String) (hp : p.data ≠ [])
    (h : containsL p.data i.data = false) :
    pyReplaceEmpty (p ++ i) p = i := by
  unfold pyReplaceEmpty
  rw [strData_append, replaceEmptyFuel_append p.data i.data hp h]

/-! ### C1 — prefix routing and id extraction -/

/-- Claim C1 as stated is false: the controller extracts the id with
`data.replace(prefix, "")`, which removes every occurrence of the prefix, so
an id containing the prefix does not round-trip.  The callback token built
from prefix `"srv_"` and id `"srv_abc"` routes to the open-server branch with
extracted id `"abc"`, not `"srv_abc"`. -/
theorem routeRoundTrip_counterexample :
    handle_main_menu_route ("srv_" ++ "srv_abc") = MenuRoute.openServer "abc" ∧
    "abc" ≠ "srv_abc" := ⟨rfl, by decide⟩

/-- Claim C1 (amended): for every controller prefix `p` and every id `i` that
does not contain `p` as a substring, the dispatcher routes the token `p ++ i`
to `p`'s branch by a literal-prefix check and the extracted id is exactly
`i`.  For `p = "manage_"` the token must additionally not collide with the
exact-match token `"manage_servers"`, which is tested earlier in the same
`if/elif` chain (the collision with `"manage_tokens"`, tested later, is claim
C4's bug: the token still routes to the `"manage_"` branch, with id
`"tokens"`). -/
theorem routeRoundTrip :
    (∀ i : String, pyContains i "srv_" = false →
       handle_main_menu_route ("srv_" ++ i) = MenuRoute.openServer i) ∧
    (∀ i : String, pyContains i "manage_" = false →
       ("manage_" ++ i : String) ≠ "manage_servers" →
       handle_main_menu_route ("manage_" ++ i) = MenuRoute.manageInfo i) ∧
    (∀ i : String, pyContains i "refresh_srv_" = false →
       handle_main_menu_route ("refresh_srv_" ++ i) = MenuRoute.refreshServer i) ∧
    (∀ i : String, pyContains i "del_" = false →
       handle_main_menu_route ("del_" ++ i) = MenuRoute.deleteServer i) ∧
    (∀ i : String, pyContains i "token_update_" = false →
       handle_main_menu_route ("token_update_" ++ i) = MenuRoute.tokenUpdate i) ∧
    (∀ i : String, pyContains i "token_remove_" = false →
       handle_main_menu_route ("token_remove_" ++ i) = MenuRoute.tokenRemove i) ∧
    (∀ i : String, pyContains i "del_" = false →
       handle_server_details_route ("del_" ++ i) = DetailsRoute.deleteServer i) ∧
    (∀ i : String, pyContains i "check_" = false →
       handle_server_details_route ("check_" ++ i) = DetailsRoute.check i) ∧
    (∀ i : String, pyContains i "vpn_verify_" = false →
       handle_server_details_route ("vpn_verify_" ++ i) = DetailsRoute.vpnVerify i) ∧
    (∀ i : String, pyContains i "ssh_key_" = false →
       handle_server_details_route ("ssh_key_" ++ i) = DetailsRoute.sshKey i) ∧
    (∀ i : String, pyContains i "metrics_" = false →
       handle_server_details_route ("metrics_" ++ i) = DetailsRoute.metrics i) := by
  refine ⟨?_, ?_, ?_, ?_, ?_, ?_, ?_, ?_, ?_, ?_, ?_⟩
  · intro i hni
    have h0 : handle_main_menu_route ("srv_" ++ i) =
        MenuRoute.openServer (pyReplaceEmpty ("srv_" ++ i) "srv_") := rfl
    rw [h0, pyReplaceEmpty_pre "srv_" i (by decide) hni]
  · intro i hni hneq
    have hd : ("manage_" ++ i).data =
        'm' :: 'a' :: 'n' :: 'a' :: 'g' :: 'e' :: '_' :: i.data := rfl
    have hms : ¬(("manage_" ++ i).data = "manage_servers".data) := by
      intro hcontra
      apply hneq
      have h2 : i.data = "servers".data := by
        rw [hd] at hcontra
        simpa using hcontra
      rw [strExt h2]
      rfl
    unfold handle_main_menu_route
    rw [if_neg (show ¬(("manage_" ++ i).data = "refresh".data) by rw [hd]; simp)]
    rw [if_neg hms]
    rw [if_neg (show ¬(("manage_" ++ i).data = "back_main".data) by rw [hd]; simp)]
    rw [if_neg (show ¬(("manage_" ++ i).data = "create_server".data) by rw [hd]; simp)]
    have b5 : startsWithL "srv_".data (("manage_" ++ i).data) = false := by rw [hd]; rfl
    rw [if_neg (ne_true_of_eq_false b5)]
    have b6 : startsWithL "manage_".data (("manage_" ++ i).data) = true := by rw [hd]; rfl
    rw [if_pos b6, pyReplaceEmpty_pre "manage_" i (by decide) hni]
  · intro i hni
    have h0 : handle_main_menu_route ("refresh_srv_" ++ i) =
        MenuRoute.refreshServer (pyReplaceEmpty ("refresh_srv_" ++ i) "refresh_srv_") := rfl
    rw [h0, pyReplaceEmpty_pre "refresh_srv_" i (by decide) hni]
  · intro i hni
    have h0 : handle_main_menu_route ("del_" ++ i) =
        MenuRoute.deleteServer (pyReplaceEmpty ("del_" ++ i) "del_") := rfl
    rw [h0, pyReplaceEmpty_pre "del_" i (by decide) hni]
  · intro i hni
    have h0 : handle_main_menu_route ("token_update_" ++ i) =
        MenuRoute.tokenUpdate (pyReplaceEmpty ("token_update_" ++ i) "token_update_") := rfl
    rw [h0, pyReplaceEmpty_pre "token_update_" i (by decide) hni]
  · intro i hni
    have h0 : handle_main_menu_route ("token_remove_" ++ i) =
        MenuRoute.tokenRemove (pyReplaceEmpty ("token_remove_" ++ i) "token_remove_") := rfl
    rw [h0, pyReplaceEmpty_pre "token_remove_" i (by decide) hni]
  · intro i hni
    have h0 : handle_server_details_route ("del_" ++ i) =
        DetailsRoute.deleteServer (pyReplaceEmpty ("del_" ++ i) "del_") := rfl
    rw [h0, pyReplaceEmpty_pre "del_" i (by decide) hni]
  · intro i hni
    have h0 : handle_server_details_route ("check_" ++ i) =
        DetailsRoute.check (pyReplaceEmpty ("check_" ++ i) "check_") := rfl
    rw [h0, pyReplaceEmpty_pre "check_" i (by decide) hni]
  · intro i hni
    have h0 : handle_server_details_route ("vpn_verify_" ++ i) =
        DetailsRoute.vpnVerify (pyReplaceEmpty ("vpn_verify_" ++ i) "vpn_verify_") := rfl
    rw [h0, pyReplaceEmpty_pre "vpn_verify_" i (by decide) hni]
  · intro i hni
    have h0 : handle_server_details_route ("ssh_key_" ++ i) =
        DetailsRoute.sshKey (pyReplaceEmpty ("ssh_key_" ++ i) "ssh_key_") := rfl
    rw [h0, pyReplaceEmpty_pre "ssh_key_" i (by decide) hni]
  · intro i hni
    have h0 : handle_server_details_route ("metrics_" ++ i) =
        DetailsRoute.metrics (pyReplaceEmpty ("metrics_" ++ i) "metrics_") := rfl
    rw [h0, pyReplaceEmpty_pre "metrics_" i (by decide) hni]

/-- Witness for C1: the amended theorem applied at concrete prefix-free ids
in both dispatchers (including the `"manage_" ++ "tokens"` case of C4). -/
theorem routeRoundTrip_witness :
    pyContains "abc123" "srv_" = false ∧
    handle_main_menu_route ("srv_" ++ "abc123") = MenuRoute.openServer "abc123" ∧
    pyContains "tokens" "manage_" = false ∧
    ("manage_" ++ "tokens" : String) ≠ "manage_servers" ∧
    handle_main_menu_route ("manage_" ++ "tokens") = MenuRoute.manageInfo "tokens" ∧
    pyContains "abc123" "metrics_" = false ∧
    handle_server_details_route ("metrics_" ++ "abc123") = DetailsRoute.metrics "abc123" :=
  ⟨by decide, routeRoundTrip.1 "abc123" (by decide), by decide, by decide,
   routeRoundTrip.2.1 "tokens" (by decide) (by decide), by decide,
   routeRoundTrip.2.2.2.2.2.2.2.2.2.2 "abc123" (by decide)⟩


/-! ### Lemmas about `strip`, `lower` and substring containment -/

theorem pyToLower_ws (c : Char) (h : pyIsSpace c = true) : pyToLower c = c := by
  simp only [pyIsSpace, Bool.or_eq_true, decide_eq_true_eq] at h
  rcases h with ((((h | h) | h) | h) | h) | h <;> subst h <;> rfl

theorem map_pyToLower_ws (w : List Char) (hw : ∀ c ∈ w, pyIsSpace c = true) :
    w.map pyToLower = w := by
  induction w with
  | nil => rfl
  | cons c cs ih =>
    simp [pyToLower_ws c (hw c (List.mem_cons_self c cs)),
      ih (fun x hx => hw x (List.mem_cons_of_mem c hx))]

theorem containsL_all_ws (n0 : Char) (nrest : List Char) (hn0 : pyIsSpace n0 = false) :
    ∀ w : List Char, (∀ c ∈ w, pyIsSpace c = true) →
      containsL (n0 :: nrest) w = false := by
  intro w
  induction w with
  | nil => intro _; rfl
  | cons c cs ih =>
    intro hw
    have hnc : n0 ≠ c := by
      intro he
      have h2 := hw c (List.mem_cons_self c cs)
      rw [he, h2] at hn0
      exact Bool.noConfusion hn0
    simp [containsL, matchPre, hnc, ih (fun x hx => hw x (List.mem_cons_of_mem c hx))]

theorem containsL_ws_append (n0 : Char) (nrest : List Char)
    (hn0 : pyIsSpace n0 = false)
    (w : List Char) (hw : ∀ c ∈ w, pyIsSpace c = true) (l : List Char) :
    containsL (n0 :: nrest) (w ++ l) = containsL (n0 :: nrest) l := by
  induction w with
  | nil => rfl
  | cons c cs ih =>
    have hnc : n0 ≠ c := by
      intro he
      have h2 := hw c (List.mem_cons_self c cs)
      rw [he, h2] at hn0
      exact Bool.noConfusion hn0
    simp only [List.cons_append, containsL, matchPre, List.append_eq]
    rw [if_neg hnc]
    simpa using ih (fun x hx => hw x (List.mem_cons_of_mem c hx))

theorem matchPre_append_ws : ∀ nd : List Char, (∀ c ∈ nd, pyIsSpace c = false) →
    ∀ w : List Char, (∀ c ∈ w, pyIsSpace c = true) →
    ∀ l : List Char, (matchPre nd (l ++ w)).isSome = (matchPre nd l).isSome := by
  intro nd
  induction nd with
  | nil => intro _ w _ l; simp [matchPre]
  | cons n ns ih =>
    intro hnd w hw l
    cases l with
    | nil =>
      simp only [List.nil_append]
      cases w with
      | nil => rfl
      | cons c cs =>
        have hnc : n ≠ c := by
          intro he
          have h1 := hnd n (List.mem_cons_self n ns)
          have h2 := hw c (List.mem_cons_self c cs)
          rw [he, h2] at h1
          exact Bool.noConfusion h1
        simp [matchPre, hnc]
    | cons c cs =>
      simp only [List.cons_append, matchPre]
      by_cases he : n = c
      · simp only [he, if_pos rfl]
        exact ih (fun x hx => hnd x (List.mem_cons_of_mem n hx)) w hw cs
      · simp [he]

theorem containsL_append_ws (n0 : Char) (nrest : List Char)
    (hnd : ∀ c ∈ n0 :: nrest, pyIsSpace c = false)
    (w : List Char) (hw : ∀ c ∈ w, pyIsSpace c = true) :
    ∀ l : List Char, containsL (n0 :: nrest) (l ++ w) = containsL (n0 :: nrest) l := by
  intro l
  induction l with
  | nil =>
    simp only [List.nil_append]
    rw [containsL_all_ws n0 nrest (hnd n0 (List.mem_cons_self n0 nrest)) w hw]
    rfl
  | cons c cs ih =>
    simp only [List.cons_append, containsL, List.append_eq]
    rw [ih]
    have hm := matchPre_append_ws (n0 :: nrest) hnd w hw (c :: cs)
    rw [List.cons_append] at hm
    rw [hm]

theorem stripRight_decomp (m : List Char) :
    ∃ w : List Char, m = (m.reverse.dropWhile pyIsSpace).reverse ++ w ∧
      ∀ c ∈ w, pyIsSpace c = true := by
  refine ⟨(m.reverse.takeWhile pyIsSpace).reverse, ?_, ?_⟩
  · conv_lhs => rw [← List.reverse_reverse m,
      ← List.takeWhile_append_dropWhile (p := pyIsSpace) (l := m.reverse)]
    rw [List.reverse_append]
  · intro c hc
    rw [List.mem_reverse] at hc
    exact List.mem_takeWhile_imp hc

theorem pyStripL_decomp (l : List Char) :
    ∃ pre suf : List Char, l = pre ++ (pyStripL l ++ suf) ∧
      (∀ c ∈ pre, pyIsSpace c = true) ∧ (∀ c ∈ suf, pyIsSpace c = true) := by
  obtain ⟨w, hw1, hw2⟩ := stripRight_decomp (l.dropWhile pyIsSpace)
  refine ⟨l.takeWhile pyIsSpace, w, ?_, ?_, hw2⟩
  · conv_lhs =>
      rw [← List.takeWhile_append_dropWhile (p := pyIsSpace) (l := l), hw1]
    rfl
  · intro c hc
    exact List.mem_takeWhile_imp hc

/-- The "verified" test of `_vpn_ready_label` is insensitive to the
`strip()`: if the lower-cased message contains `"verified"`, so does the
stripped-and-lower-cased message that the code actually tests. -/
theorem containsVerified_strip (msg : String)
    (h : pyContains (pyLower msg) "verified" = true) :
    pyContains (pyStripLower msg) "verified" = true := by
  show containsL ('v' :: "erified".data) (pyLowerL (pyStripL msg.data)) = true
  obtain ⟨pre, suf, hdec, hpre, hsuf⟩ := pyStripL_decomp msg.data
  have h0 : containsL ('v' :: "erified".data) (pyLowerL msg.data) = true := h
  have hmsg : pyLowerL msg.data = pre ++ (pyLowerL (pyStripL msg.data) ++ suf) := by
    conv_lhs => rw [hdec]
    simp only [pyLowerL, List.map_append]
    rw [map_pyToLower_ws pre hpre, map_pyToLower_ws suf hsuf]
  rw [hmsg, containsL_ws_append 'v' "erified".data (by decide) pre hpre,
    containsL_append_ws 'v' "erified".data (by decide) suf hsuf] at h0
  exact h0

/-! ### C6 — `_vpn_ready_label` precedence -/

/-- Claim C6: a server whose `vpnInstallMessage` contains `"verified"`
(case-insensitively) maps to the Ready bucket regardless of every other
field; a server with no VPN-specific signal whose backend status is in the
setup set maps to Loading; and the default bucket when no rule matches is
Loading — the VPN label is never an Unknown bucket. -/
theorem vpnReadinessRules :
    (∀ server : Server,
       pyContains (pyLower (server.vpnInstallMessage.getD "")) "verified" = true →
       _vpn_ready_label server = ("✅", "Ready")) ∧
    (∀ server : Server,
       pyStripLower (server.vpnInstallStatus.getD "") = "" →
       pyStripLower (server.vpnInstallMessage.getD "") = "" →
       pyStripLower (server.status.getD "") ∈ STATUS_SETUP →
       _vpn_ready_label server = ("⏳", "Loading")) ∧
    (∀ server : Server,
       (_vpn_ready_label server).2 = "Ready" ∨ (_vpn_ready_label server).2 = "Loading" ∨
       (_vpn_ready_label server).2 = "Error") := by
  refine ⟨?_, ?_, ?_⟩
  · intro s h
    have hc := containsVerified_strip _ h
    simp only [_vpn_ready_label]
    rw [if_pos (Or.inr hc)]
  · intro s h1 h2 h3
    simp only [_vpn_ready_label]
    rw [h1, h2]
    rw [if_neg (by decide), if_pos (Or.inr h3)]
  · intro s
    simp only [_vpn_ready_label]
    split_ifs <;> simp

/-- Witness for C6: the theorem applied at a concrete server whose message
contains "VERIFIED" but whose status is an error, and at a signal-less
server in backend setup state. -/
theorem vpnReadinessRules_witness :
    _vpn_ready_label { vpnInstallMessage := some "Conduit VERIFIED on port 9090",
                       status := some "error" } = ("✅", "Ready") ∧
    _vpn_ready_label { status := some "booting" } = ("⏳", "Loading") :=
  ⟨vpnReadinessRules.1 _ (by decide),
   vpnReadinessRules.2.1 _ (by decide) (by decide) (by decide)⟩

/-! ### C5 — `_status_display` bucketing -/

/-- Claim C5 as stated is false at the empty string: `""` is not in any of
the three status sets, yet `_status_display` labels it `"Unknown"` instead of
echoing the original (empty) string. -/
theorem statusDisplayBuckets_counterexample :
    pyStripLower "" ∉ STATUS_READY ∧ pyStripLower "" ∉ STATUS_ISSUE ∧
    pyStripLower "" ∉ STATUS_SETUP ∧ (_status_display "").2 = "Unknown" ∧
    (_status_display "").2 ≠ "" := by decide

/-- Claim C5 (amended): for every raw status string, stripping and
lower-casing and testing membership in the fixed sets yields the Ready /
Issue / Setting-up buckets; any other non-empty string is echoed as the label
of the Unknown bucket, and the empty string is displayed as `"Unknown"`. -/
theorem statusDisplayBuckets :
    (∀ s : String, pyStripLower s ∈ STATUS_READY → _status_display s = ("✅", "Ready")) ∧
    (∀ s : String, pyStripLower s ∈ STATUS_ISSUE → _status_display s = ("❌", "Issue")) ∧
    (∀ s : String, pyStripLower s ∈ STATUS_SETUP → _status_display s = ("⏳", "Setting up")) ∧
    (∀ s : String, s ≠ "" → pyStripLower s ∉ STATUS_READY → pyStripLower s ∉ STATUS_ISSUE →
      pyStripLower s ∉ STATUS_SETUP → _status_display s = ("⚪", s)) ∧
    _status_display "" = ("⚪", "Unknown") := by
  refine ⟨?_, ?_, ?_, ?_, by decide⟩
  · intro s h
    simp only [_status_display]
    rw [if_pos h]
  · intro s h
    have h1 : pyStripLower s ∉ STATUS_READY := by
      intro h2
      simp only [STATUS_READY, STATUS_ISSUE, List.mem_cons, List.not_mem_nil, or_false] at h h2
      rcases h with h | h | h <;> rw [h] at h2 <;> revert h2 <;> decide
    simp only [_status_display]
    rw [if_neg h1, if_pos h]
  · intro s h
    have h1 : pyStripLower s ∉ STATUS_READY := by
      intro h2
      simp only [STATUS_READY, STATUS_SETUP, List.mem_cons, List.not_mem_nil, or_false] at h h2
      rcases h with h | h | h | h | h <;> rw [h] at h2 <;> revert h2 <;> decide
    have h2 : pyStripLower s ∉ STATUS_ISSUE := by
      intro h2
      simp only [STATUS_ISSUE, STATUS_SETUP, List.mem_cons, List.not_mem_nil, or_false] at h h2
      rcases h with h | h | h | h | h <;> rw [h] at h2 <;> revert h2 <;> decide
    simp only [_status_display]
    rw [if_neg h1, if_neg h2, if_pos h]
  · intro s hne h1 h2 h3
    simp only [_status_display]
    rw [if_neg h1, if_neg h2, if_neg h3, if_neg hne]

/-- Witness for C5: the amended theorem applied at one concrete status string
per bucket. -/
theorem statusDisplayBuckets_witness :
    _status_display "  ACTIVE " = ("✅", "Ready") ∧
    _status_display "failed" = ("❌", "Issue") ∧
    _status_display "booting" = ("⏳", "Setting up") ∧
    _status_display "weird" = ("⚪", "weird") :=
  ⟨statusDisplayBuckets.1 "  ACTIVE " (by decide),
   statusDisplayBuckets.2.1 "failed" (by decide),
   statusDisplayBuckets.2.2.1 "booting" (by decide),
   statusDisplayBuckets.2.2.2.1 "weird" (by decide) (by decide) (by decide) (by decide)⟩

/-! ### C4 — the `manage_tokens` action is misrouted -/

/-- Claim C4 names a code bug: in `MainMenu`, the callback token
`"manage_tokens"` is captured by the earlier `data.startswith(CB_MANAGE)`
check (`CB_MANAGE = "manage_"`), so it is routed into the server-details
branch with extracted server id `"tokens"`; the dedicated
`data == CB_MANAGE_TOKENS` branch that would render the token inventory is
unreachable for every callback token. -/
theorem manageTokensMisrouted :
    handle_main_menu_route "manage_tokens" = MenuRoute.manageInfo "tokens" ∧
    ∀ d : String, handle_main_menu_route d ≠ MenuRoute.manageTokens := by
  constructor
  · rfl
  · intro d hcontra
    unfold handle_main_menu_route at hcontra
    by_cases h1 : d.data = "refresh".data
    · rw [if_pos h1] at hcontra; exact MenuRoute.noConfusion hcontra
    rw [if_neg h1] at hcontra
    by_cases h2 : d.data = "manage_servers".data
    · rw [if_pos h2] at hcontra; exact MenuRoute.noConfusion hcontra
    rw [if_neg h2] at hcontra
    by_cases h3 : d.data = "back_main".data
    · rw [if_pos h3] at hcontra; exact MenuRoute.noConfusion hcontra
    rw [if_neg h3] at hcontra
    by_cases h4 : d.data = "create_server".data
    · rw [if_pos h4] at hcontra; exact MenuRoute.noConfusion hcontra
    rw [if_neg h4] at hcontra
    by_cases h5 : startsWithL "srv_".data d.data = true
    · rw [if_pos h5] at hcontra; exact MenuRoute.noConfusion hcontra
    rw [if_neg h5] at hcontra
    by_cases h6 : startsWithL "manage_".data d.data = true
    · rw [if_pos h6] at hcontra; exact MenuRoute.noConfusion hcontra
    rw [if_neg h6] at hcontra
    by_cases h7 : startsWithL "refresh_srv_".data d.data = true
    · rw [if_pos h7] at hcontra; exact MenuRoute.noConfusion hcontra
    rw [if_neg h7] at hcontra
    by_cases h8 : startsWithL "del_".data d.data = true
    · rw [if_pos h8] at hcontra; exact MenuRoute.noConfusion hcontra
    rw [if_neg h8] at hcontra
    by_cases h9 : d.data = "manage_tokens".data
    · rw [h9] at h6; exact h6 (by decide)
    rw [if_neg h9] at hcontra
    by_cases h10 : d.data = "add_provider".data
    · rw [if_pos h10] at hcontra; exact MenuRoute.noConfusion hcontra
    rw [if_neg h10] at hcontra
    by_cases h11 : d.data = "back_tokens".data
    · rw [if_pos h11] at hcontra; exact MenuRoute.noConfusion hcontra
    rw [if_neg h11] at hcontra
    by_cases h12 : startsWithL "token_update_".data d.data = true
    · rw [if_pos h12] at hcontra; exact MenuRoute.noConfusion hcontra
    rw [if_neg h12] at hcontra
    by_cases h13 : startsWithL "token_remove_".data d.data = true
    · rw [if_pos h13] at hcontra; exact MenuRoute.noConfusion hcontra
    rw [if_neg h13] at hcontra
    by_cases h14 : d.data = "delete_account".data
    · rw [if_pos h14] at hcontra; exact MenuRoute.noConfusion hcontra
    rw [if_neg h14] at hcontra
    exact MenuRoute.noConfusion hcontra

/-- Witness for C4: the unreachability conjunct applied at the very token the
dead branch tests for. -/
theorem manageTokensMisrouted_witness :
    handle_main_menu_route "manage_tokens" ≠ MenuRoute.manageTokens :=
  manageTokensMisrouted.2 "manage_tokens"

/-! ### C9 — edit-in-place failure handling in `show_main_menu` -/

/-- Claim C9 as stated is false: an edit failure other than "not modified"
(here `BadRequest("Chat not found")` against an anchored main-menu message) is
re-raised by `show_main_menu`, not converted into a fresh message send. -/
theorem editFailureHandling_counterexample :
    show_main_menu true
      { user_id := some "u", main_menu_message_id := some 7, main_menu_chat_id := some 9 }
      9 7 8 (some []) none (EditResult.badRequest "Chat not found") =
    Except.error "Chat not found" := rfl

/-- Claim C9 (amended): when a main-menu render edits in place and the edit
raises `BadRequest`, a "not modified" failure (case-insensitive) is swallowed
and the turn completes normally in `MainMenu` with the session unchanged; any
other `BadRequest` is re-raised and propagates out of the handler (there is
no fresh-message fallback). -/
theorem editFailureHandling :
    (∀ (ud : UserData) (chat_id cb sent : Int) (servers : List Server)
       (stats : Option JsonValue) (m : String),
       pyTruthyStrOpt ud.user_id = true →
       pyContains (pyLower m) "not modified" = true →
       show_main_menu true ud chat_id cb sent (some servers) stats
         (EditResult.badRequest m) = Except.ok (ud, MAIN_MENU)) ∧
    (∀ (ud : UserData) (chat_id cb sent : Int) (servers : List Server)
       (stats : Option JsonValue) (m : String),
       pyTruthyStrOpt ud.user_id = true →
       pyContains (pyLower m) "not modified" = false →
       show_main_menu true ud chat_id cb sent (some servers) stats
         (EditResult.badRequest m) = Except.error m) := by
  constructor
  · intro ud chat_id cb sent servers stats m hu hc
    by_cases hanchor : ud.main_menu_message_id.isSome ∧ ud.main_menu_chat_id = some chat_id
    · simp [show_main_menu, hu, hc, hanchor]
    · simp [show_main_menu, hu, hc, hanchor]
  · intro ud chat_id cb sent servers stats m hu hc
    by_cases hanchor : ud.main_menu_message_id.isSome ∧ ud.main_menu_chat_id = some chat_id
    · simp [show_main_menu, hu, hc, hanchor]
    · simp [show_main_menu, hu, hc, hanchor]

/-- Witness for C9: the amended theorem applied at a concrete anchored
session, for a "not modified" failure and for another failure. -/
theorem editFailureHandling_witness :
    show_main_menu true
      { user_id := some "u", main_menu_message_id := some 7, main_menu_chat_id := some 9 }
      9 7 8 (some []) none (EditResult.badRequest "Message is not modified") =
      Except.ok ({ user_id := some "u", main_menu_message_id := some 7,
                   main_menu_chat_id := some 9 }, MAIN_MENU) ∧
    show_main_menu true
      { user_id := some "u", main_menu_message_id := some 7, main_menu_chat_id := some 9 }
      9 7 8 (some []) none (EditResult.badRequest "Message to edit not found") =
      Except.error "Message to edit not found" :=
  ⟨editFailureHandling.1 _ 9 7 8 [] none "Message is not modified" (by decide) (by decide),
   editFailureHandling.2 _ 9 7 8 [] none "Message to edit not found" (by decide) (by decide)⟩

/-! ### C8 — error classification of the API gateway -/

/-- Claim C8 as stated is false in one corner: when the JSON body's `message`
field is present but falsy (here the empty string), `callDetailed` does not
return that field; it falls through to the first 200 characters of the raw
body. -/
theorem apiErrorReporting_counterexample :
    api_request_with_error (ApiOutcome.httpStatusError
      ⟨400, "\x7b\"message\": \"\"\x7d",
       some (JsonValue.jobj [("message", JsonValue.jstr "")])⟩) =
      (none, some "\x7b\"message\": \"\"\x7d") ∧
    (some "\x7b\"message\": \"\"\x7d" : Option String) ≠ some "" :=
  ⟨rfl, by decide⟩

/-- Claim C8 (amended): on transport failure both variants return no payload
and `callDetailed` reports the fixed could-not-reach-the-API message; on a
non-2xx response `call` returns `None` and `callDetailed` reports the JSON
body's `message` field when it is present and truthy, else the first 200
characters of a non-empty raw body, else `"HTTP <status>"`.  Both variants
are total functions of the request outcome (no exception propagates). -/
theorem apiErrorReporting :
    (api_request ApiOutcome.transportError = none ∧
     api_request_with_error ApiOutcome.transportError =
       (none, some "Could not reach the API. Check it is running.") ∧
     pyContains (pyLower "Could not reach the API. Check it is running.")
       "could not reach the api" = true) ∧
    (∀ r : HttpErrorResponse, api_request (ApiOutcome.httpStatusError r) = none) ∧
    (∀ (st : Nat) (txt : String) (fields : List (String × JsonValue)) (v : JsonValue),
       dictGet fields "message" = some v → pyTruthy v = true →
       api_request_with_error (ApiOutcome.httpStatusError ⟨st, txt, some (JsonValue.jobj fields)⟩) =
         (none, some (pyStrVal v))) ∧
    (∀ r : HttpErrorResponse, hasTruthyMessage r.json = false → r.text ≠ "" →
       api_request_with_error (ApiOutcome.httpStatusError r) =
         (none, some (pyTake 200 r.text))) ∧
    (∀ (st : Nat) (js : Option JsonValue), hasTruthyMessage js = false →
       api_request_with_error (ApiOutcome.httpStatusError ⟨st, "", js⟩) =
         (none, some ("HTTP " ++ toString st))) := by
  refine ⟨⟨rfl, rfl, by decide⟩, fun r => rfl, ?_, ?_, ?_⟩
  · intro st txt fields v hget htruthy
    simp [api_request_with_error, _parse_error_message, hget, htruthy]
  · intro r h1 h2
    obtain ⟨st, txt, js⟩ := r
    simp only [HttpErrorResponse.json, HttpErrorResponse.text] at h1 h2 ⊢
    match js with
    | none => simp [api_request_with_error, _parse_error_message, h2]
    | some JsonValue.jnull => simp [api_request_with_error, _parse_error_message, h2]
    | some (JsonValue.jbool b) => simp [api_request_with_error, _parse_error_message, h2]
    | some (JsonValue.jnum n) => simp [api_request_with_error, _parse_error_message, h2]
    | some (JsonValue.jstr s) => simp [api_request_with_error, _parse_error_message, h2]
    | some (JsonValue.jarr es) => simp [api_request_with_error, _parse_error_message, h2]
    | some (JsonValue.jobj fields) =>
      rcases hg : dictGet fields "message" with _ | v
      · simp [api_request_with_error, _parse_error_message, hg, h2]
      · have hv : pyTruthy v = false := by
          simpa [hasTruthyMessage, hg] using h1
        simp [api_request_with_error, _parse_error_message, hg, hv, h2]
  · intro st js h1
    match js with
    | none => simp [api_request_with_error, _parse_error_message]
    | some JsonValue.jnull => simp [api_request_with_error, _parse_error_message]
    | some (JsonValue.jbool b) => simp [api_request_with_error, _parse_error_message]
    | some (JsonValue.jnum n) => simp [api_request_with_error, _parse_error_message]
    | some (JsonValue.jstr s) => simp [api_request_with_error, _parse_error_message]
    | some (JsonValue.jarr es) => simp [api_request_with_error, _parse_error_message]
    | some (JsonValue.jobj fields) =>
      rcases hg : dictGet fields "message" with _ | v
      · simp [api_request_with_error, _parse_error_message, hg]
      · have hv : pyTruthy v = false := by
          simpa [hasTruthyMessage, hg] using h1
        simp [api_request_with_error, _parse_error_message, hg, hv]

/-- Witness for C8: the amended theorem applied at concrete outcomes (a
truthy message body, a non-empty raw body without one, and an empty body). -/
theorem apiErrorReporting_witness :
    api_request (ApiOutcome.httpStatusError ⟨400, "boom", none⟩) = none ∧
    api_request_with_error (ApiOutcome.httpStatusError
      ⟨400, "b", some (JsonValue.jobj [("message", JsonValue.jstr "invalid token")])⟩) =
      (none, some "invalid token") ∧
    api_request_with_error (ApiOutcome.httpStatusError ⟨404, "page missing", none⟩) =
      (none, some "page missing") ∧
    api_request_with_error (ApiOutcome.httpStatusError ⟨502, "", none⟩) =
      (none, some "HTTP 502") :=
  ⟨apiErrorReporting.2.1 ⟨400, "boom", none⟩,
   apiErrorReporting.2.2.1 400 "b" [("message", JsonValue.jstr "invalid token")]
     (JsonValue.jstr "invalid token") rfl (by decide),
   apiErrorReporting.2.2.2.1 ⟨404, "page missing", none⟩ rfl (by decide),
   apiErrorReporting.2.2.2.2 502 none rfl⟩

/-! ### C2 — token submission rejected by the backend -/

/-- Claim C2 as stated is false: when the backend rejects `POST /selections`
with a body carrying `message: "invalid token"`, the handler (which uses the
silent `api_request` helper) replies with a fixed failure text that does not
contain the backend's message.  The conversation does remain in
`EnterToken`. -/
theorem tokenInputBackendError_counterexample :
    (handle_token_input "tok123" { user_id := some "u", provider := some "hetzner" }
      (ApiOutcome.httpStatusError
        ⟨400, "\x7b\"message\": \"invalid token\"\x7d",
         some (JsonValue.jobj [("message", JsonValue.jstr "invalid token")])⟩)
      ApiOutcome.transportError).replies =
      ["❌ Failed to verify/save your token. Please try again or /start over."] ∧
    pyContains "❌ Failed to verify/save your token. Please try again or /start over."
      "invalid token" = false ∧
    (handle_token_input "tok123" { user_id := some "u", provider := some "hetzner" }
      (ApiOutcome.httpStatusError
        ⟨400, "\x7b\"message\": \"invalid token\"\x7d",
         some (JsonValue.jobj [("message", JsonValue.jstr "invalid token")])⟩)
      ApiOutcome.transportError).next = NextScreen.state ENTER_TOKEN := by decide

/-- Claim C2 (amended): if the user submits a token whose stripped text is
non-empty and the backend answers `POST /selections` with a non-2xx response,
the handler replies with the fixed failure text (the backend's `message` is
not shown), keeps the session unchanged and stays in `EnterToken`. -/
theorem tokenInputBackendError (text : String) (ud : UserData)
    (resp : HttpErrorResponse) (stats : ApiOutcome)
    (h : pyStrip text ≠ "") :
    handle_token_input text ud (ApiOutcome.httpStatusError resp) stats =
      { replies := ["❌ Failed to verify/save your token. Please try again or /start over."],
        next := NextScreen.state ENTER_TOKEN, ud := ud } := by
  simp only [handle_token_input, api_request]
  rw [if_neg h]
  simp [pyTruthyJsonOpt]

/-- Witness for C2's amended theorem at a concrete rejected submission. -/
theorem tokenInputBackendError_witness :
    pyStrip "tok123" ≠ "" ∧
    handle_token_input "tok123" { user_id := some "u", provider := some "hetzner" }
      (ApiOutcome.httpStatusError ⟨400, "bad", none⟩) ApiOutcome.transportError =
      { replies := ["❌ Failed to verify/save your token. Please try again or /start over."],
        next := NextScreen.state ENTER_TOKEN,
        ud := { user_id := some "u", provider := some "hetzner" } } :=
  ⟨by decide,
   tokenInputBackendError "tok123" { user_id := some "u", provider := some "hetzner" }
     ⟨400, "bad", none⟩ ApiOutcome.transportError (by decide)⟩

/-! ### Lemmas about whitespace tokenization (`str.split`) -/

theorem splitWsGo_cons_not_ws (c : Char) (cs cur : List Char)
    (hc : pyIsSpace c = false) :
    splitWsGo (c :: cs) cur = splitWsGo cs (c :: cur) := by
  simp [splitWsGo, hc]

theorem splitWsGo_cons_ws_nil (c : Char) (cs : List Char) (hc : pyIsSpace c = true) :
    splitWsGo (c :: cs) [] = splitWsGo cs [] := by
  simp [splitWsGo, hc]

theorem splitWsGo_cons_ws (c : Char) (cs cur : List Char)
    (hc : pyIsSpace c = true) (hcur : cur ≠ []) :
    splitWsGo (c :: cs) cur = cur.reverse :: splitWsGo cs [] := by
  rcases cur with _ | ⟨x, xs⟩
  · exact absurd rfl hcur
  · simp [splitWsGo, hc]

theorem splitWsGo_token (t : List Char) (ht : ∀ c ∈ t, pyIsSpace c = false) :
    ∀ rest cur, splitWsGo (t ++ rest) cur = splitWsGo rest (t.reverse ++ cur) := by
  induction t with
  | nil => intro rest cur; rfl
  | cons c ts ih =>
    intro rest cur
    rw [List.cons_append,
      splitWsGo_cons_not_ws c (ts ++ rest) cur (ht c (List.mem_cons_self c ts)),
      ih (fun x hx => ht x (List.mem_cons_of_mem c hx)) rest (c :: cur)]
    simp

theorem splitWsGo_all_ws (w : List Char) (hw : ∀ c ∈ w, pyIsSpace c = true) :
    splitWsGo w [] = [] := by
  induction w with
  | nil => rfl
  | cons c cs ih =>
    rw [splitWsGo_cons_ws_nil c cs (hw c (List.mem_cons_self c cs))]
    exact ih (fun x hx => hw x (List.mem_cons_of_mem c hx))

theorem splitWsGo_ws_run (w : List Char) (hw : ∀ c ∈ w, pyIsSpace c = true) :
    ∀ rest, splitWsGo (w ++ rest) [] = splitWsGo rest [] := by
  induction w with
  | nil => intro rest; rfl
  | cons c cs ih =>
    intro rest
    rw [List.cons_append, splitWsGo_cons_ws_nil c _ (hw c (List.mem_cons_self c cs))]
    exact ih (fun x hx => hw x (List.mem_cons_of_mem c hx)) rest

theorem splitWsGo_append_ws (w : List Char) (hw : ∀ c ∈ w, pyIsSpace c = true) :
    ∀ l cur, splitWsGo (l ++ w) cur = splitWsGo l cur := by
  intro l
  induction l with
  | nil =>
    intro cur
    simp only [List.nil_append]
    rcases cur with _ | ⟨x, xs⟩
    · rw [splitWsGo_all_ws w hw]; rfl
    · rcases w with _ | ⟨c, cs⟩
      · rfl
      · rw [splitWsGo_cons_ws c cs (x :: xs) (hw c (List.mem_cons_self c cs)) (by simp),
          splitWsGo_all_ws cs (fun y hy => hw y (List.mem_cons_of_mem c hy))]
        rfl
  | cons c cs ih =>
    intro cur
    rw [List.cons_append]
    by_cases hc : pyIsSpace c = true
    · rcases cur with _ | ⟨x, xs⟩
      · rw [splitWsGo_cons_ws_nil c _ hc, splitWsGo_cons_ws_nil c _ hc]
        exact ih []
      · rw [splitWsGo_cons_ws c _ (x :: xs) hc (by simp),
          splitWsGo_cons_ws c _ (x :: xs) hc (by simp)]
        rw [ih []]
    · rw [splitWsGo_cons_not_ws c _ cur (by simpa using hc),
        splitWsGo_cons_not_ws c _ cur (by simpa using hc)]
      exact ih (c :: cur)

theorem splitWsGo_dropWhile (l : List Char) :
    splitWsGo (l.dropWhile pyIsSpace) [] = splitWsGo l [] := by
  conv_rhs => rw [← List.takeWhile_append_dropWhile (p := pyIsSpace) (l := l)]
  rw [splitWsGo_ws_run (l.takeWhile pyIsSpace)
    (fun c hc => List.mem_takeWhile_imp hc)]

theorem pySplitWsL_strip (l : List Char) :
    pySplitWsL (pyStripL l) = pySplitWsL l := by
  obtain ⟨pre, suf, hdec, hpre, hsuf⟩ := pyStripL_decomp l
  unfold pySplitWsL
  conv_rhs => rw [hdec]
  rw [splitWsGo_ws_run pre hpre, splitWsGo_append_ws suf hsuf]

theorem dropWhile_head_false {p : Char → Bool} :
    ∀ (l : List Char) (c : Char) (cs : List Char), l.dropWhile p = c :: cs →
      p c = false := by
  intro l
  induction l with
  | nil => intro c cs h; exact absurd h (by simp)
  | cons a as ih =>
    intro c cs h
    by_cases ha : p a = true
    · rw [List.dropWhile_cons, if_pos ha] at h
      exact ih c cs h
    · rw [List.dropWhile_cons, if_neg ha] at h
      obtain ⟨h1, _⟩ := List.cons.inj h
      subst h1
      simpa using ha

theorem splitWsGo_ne_nil (l : List Char) :
    ∀ cur : List Char, cur ≠ [] → splitWsGo l cur ≠ [] := by
  induction l with
  | nil =>
    intro cur hcur
    rcases cur with _ | ⟨x, xs⟩
    · exact absurd rfl hcur
    · simp [splitWsGo]
  | cons c cs ih =>
    intro cur hcur
    by_cases hc : pyIsSpace c = true
    · rw [splitWsGo_cons_ws c cs cur hc hcur]; simp
    · rw [splitWsGo_cons_not_ws c cs cur (by simpa using hc)]
      exact ih (c :: cur) (by simp)

/-- The whitespace tokens of a line are its `split(None, 1)` head followed by
the tokens of the `split(None, 1)` remainder. -/
theorem pySplitWsL_splitOnce (s : List Char) :
    pySplitWsL s =
      (match pySplitOnceL s with
       | [] => ([] : List (List Char))
       | [tok] => [tok]
       | tok :: rest :: _ => tok :: pySplitWsL rest) := by
  have hs : pySplitWsL s = splitWsGo (s.dropWhile pyIsSpace) [] :=
    (splitWsGo_dropWhile s).symm
  rcases hl : s.dropWhile pyIsSpace with _ | ⟨c, cs⟩
  · have ho : pySplitOnceL s = [] := by unfold pySplitOnceL; rw [hl]; rfl
    rw [hs, hl, ho]
    rfl
  · have hc : pyIsSpace c = false := dropWhile_head_false s c cs hl
    have htok_all : ∀ x ∈ (c :: cs).takeWhile (fun x => !pyIsSpace x),
        pyIsSpace x = false := by
      intro x hx
      have := List.mem_takeWhile_imp hx
      simpa using this
    have htokne : (c :: cs).takeWhile (fun x => !pyIsSpace x) ≠ [] := by
      rw [List.takeWhile_cons, if_pos (by simp [hc])]
      simp
    have ho0 : pySplitOnceL s =
        splitOnceTail ((c :: cs).takeWhile (fun x => !pyIsSpace x))
          (((c :: cs).dropWhile (fun x => !pyIsSpace x)).dropWhile pyIsSpace) := by
      unfold pySplitOnceL
      rw [hl]
      rfl
    rcases htail : (c :: cs).dropWhile (fun x => !pyIsSpace x) with _ | ⟨t, ts⟩
    · -- the line is a single token with no whitespace at all
      have ho : pySplitOnceL s = [(c :: cs).takeWhile (fun x => !pyIsSpace x)] := by
        rw [ho0, htail]
        rfl
      have hdc : c :: cs = (c :: cs).takeWhile (fun x => !pyIsSpace x) := by
        conv_lhs => rw [← List.takeWhile_append_dropWhile
          (p := fun x => !pyIsSpace x) (l := c :: cs), htail]
        rw [List.append_nil]
      rw [hs, hl, ho]
      conv_lhs => rw [hdc]
      calc splitWsGo ((c :: cs).takeWhile (fun x => !pyIsSpace x)) []
          = splitWsGo ((c :: cs).takeWhile (fun x => !pyIsSpace x) ++ []) [] := by
            rw [List.append_nil]
        _ = splitWsGo [] (((c :: cs).takeWhile (fun x => !pyIsSpace x)).reverse ++ []) :=
            splitWsGo_token _ htok_all [] []
        _ = [(c :: cs).takeWhile (fun x => !pyIsSpace x)] := by
            rw [List.append_nil]
            show (if ((c :: cs).takeWhile (fun x => !pyIsSpace x)).reverse.isEmpty
              then ([] : List (List Char))
              else [((c :: cs).takeWhile (fun x => !pyIsSpace x)).reverse.reverse]) = _
            rw [if_neg (by simp [htokne]), List.reverse_reverse]
    · have ht : pyIsSpace t = true := by
        have := dropWhile_head_false (p := fun x => !pyIsSpace x) (c :: cs) t ts htail
        simpa using this
      have hdc : c :: cs = (c :: cs).takeWhile (fun x => !pyIsSpace x) ++ (t :: ts) := by
        conv_lhs => rw [← List.takeWhile_append_dropWhile
          (p := fun x => !pyIsSpace x) (l := c :: cs), htail]
      have hLHS : splitWsGo (c :: cs) [] =
          (c :: cs).takeWhile (fun x => !pyIsSpace x) :: splitWsGo ts [] := by
        conv_lhs => rw [hdc]
        rw [splitWsGo_token _ htok_all (t :: ts) [], List.append_nil,
          splitWsGo_cons_ws t ts _ ht (by simp [htokne]), List.reverse_reverse]
      rcases hrest : ts.dropWhile pyIsSpace with _ | ⟨r, rs⟩
      · -- the whitespace after the first token runs to the end of the line
        have hts : ∀ x ∈ ts, pyIsSpace x = true := by
          have h0 := List.dropWhile_eq_nil_iff.mp hrest
          intro x hx
          simpa using h0 x hx
        have ho : pySplitOnceL s = [(c :: cs).takeWhile (fun x => !pyIsSpace x)] := by
          rw [ho0, htail, List.dropWhile_cons, if_pos ht, hrest]
          rfl
        rw [hs, hl, ho, hLHS, splitWsGo_all_ws ts hts]
      · have ho : pySplitOnceL s =
            [(c :: cs).takeWhile (fun x => !pyIsSpace x), r :: rs] := by
          rw [ho0, htail, List.dropWhile_cons, if_pos ht, hrest]
          rfl
        rw [hs, hl, ho, hLHS]
        have hWs : splitWsGo ts [] = pySplitWsL (r :: rs) := by
          unfold pySplitWsL
          rw [← hrest]
          exact (splitWsGo_dropWhile ts).symm
        rw [hWs]

/-! ### Per-line equivalence of the parser with the amended claim C7 -/

theorem takeWhile_not_brace_of_not_contains (tok : List Char)
    (h : containsL "\x7b".data tok = false) :
    tok.takeWhile (fun c => c ≠ '{') = tok := by
  induction tok with
  | nil => rfl
  | cons c cs ih =>
    simp only [containsL, matchPre, Bool.or_eq_false_iff] at h
    have hc : c ≠ '{' := by
      intro he
      have := h.1
      rw [he] at this
      simp [matchPre] at this
    rw [List.takeWhile_cons, if_pos (by simpa using hc)]
    have hcs : containsL "\x7b".data cs = false := h.2
    rw [ih hcs]

theorem codeMetricsEntry_eq_claimAmended (line : List Char) :
    codeMetricsEntry line = claimAmendedEntry line := by
  unfold codeMetricsEntry claimAmendedEntry
  by_cases hskip :
      ((pyStripL line).isEmpty || startsWithL "#".data (pyStripL line)) = true
  · rw [if_pos hskip, if_pos hskip]
  · rw [if_neg hskip, if_neg hskip]
    rw [← pySplitWsL_strip line, pySplitWsL_splitOnce (pyStripL line)]
    rcases ho : pySplitOnceL (pyStripL line) with _ | ⟨tok, _ | ⟨rest, more⟩⟩
    · rfl
    · rfl
    · rcases more with _ | ⟨x, xs⟩
      · -- the two-element case [tok, rest]
        have hrest : ∃ X : List Char, rest = X.dropWhile pyIsSpace ∧ rest ≠ [] := by
          have hoX := ho
          unfold pySplitOnceL at hoX
          rcases h1 : (pyStripL line).dropWhile pyIsSpace with _ | ⟨c, cs⟩
          · rw [h1] at hoX; simp [splitOnceCore] at hoX
          · rw [h1] at hoX
            rw [show splitOnceCore (c :: cs) =
              splitOnceTail ((c :: cs).takeWhile (fun x => !pyIsSpace x))
                (((c :: cs).dropWhile (fun x => !pyIsSpace x)).dropWhile pyIsSpace)
              from rfl] at hoX
            rcases h2 : ((c :: cs).dropWhile (fun x => !pyIsSpace x)).dropWhile
                pyIsSpace with _ | ⟨r, rs⟩
            · rw [h2] at hoX; simp [splitOnceTail] at hoX
            · rw [h2] at hoX
              rw [show splitOnceTail ((c :: cs).takeWhile (fun x => !pyIsSpace x))
                (r :: rs) = [(c :: cs).takeWhile (fun x => !pyIsSpace x), r :: rs]
                from rfl] at hoX
              obtain ⟨_, h4⟩ := List.cons.inj hoX
              obtain ⟨h5, _⟩ := List.cons.inj h4
              exact ⟨(c :: cs).dropWhile (fun x => !pyIsSpace x),
                by rw [h2, ← h5], by rw [← h5]; simp⟩
        obtain ⟨X, hX, hne⟩ := hrest
        have hsplit_ne : pySplitWsL rest ≠ [] := by
          rcases hr : rest with _ | ⟨r, rs⟩
          · exact absurd hr hne
          · have hrw : pyIsSpace r = false := by
              apply dropWhile_head_false (p := pyIsSpace) X
              rw [← hX, hr]
            unfold pySplitWsL
            rw [splitWsGo_cons_not_ws r rs [] hrw]
            exact splitWsGo_ne_nil rs [r] (by simp)
        rcases hq : pySplitWsL rest with _ | ⟨q, qs⟩
        · exact absurd hq hsplit_ne
        · simp only []
          rw [hq]
          by_cases hcb : containsL "\x7b".data tok = true
          · rw [if_pos hcb]
          · rw [if_neg hcb]
            show (if isPyFloat ((q :: qs).getLastD []) = true then
                some ((⟨tok⟩ : String), (⟨(q :: qs).getLastD []⟩ : String)) else none) =
              (if isPyFloat ((q :: qs).getLastD []) = true then
                some ((⟨tok.takeWhile (fun c => c ≠ '{')⟩ : String),
                  (⟨(q :: qs).getLastD []⟩ : String)) else none)
            rw [takeWhile_not_brace_of_not_contains tok (by simpa using hcb)]
      · -- `pySplitOnceL` never returns three or more pieces
        exfalso
        have hoX := ho
        unfold pySplitOnceL at hoX
        rcases h1 : (pyStripL line).dropWhile pyIsSpace with _ | ⟨c, cs⟩
        · rw [h1] at hoX; simp [splitOnceCore] at hoX
        · rw [h1] at hoX
          rw [show splitOnceCore (c :: cs) =
            splitOnceTail ((c :: cs).takeWhile (fun x => !pyIsSpace x))
              (((c :: cs).dropWhile (fun x => !pyIsSpace x)).dropWhile pyIsSpace)
            from rfl] at hoX
          rcases h2 : ((c :: cs).dropWhile (fun x => !pyIsSpace x)).dropWhile
              pyIsSpace with _ | ⟨r, rs⟩
          · rw [h2] at hoX; simp [splitOnceTail] at hoX
          · rw [h2] at hoX
            rw [show splitOnceTail ((c :: cs).takeWhile (fun x => !pyIsSpace x))
              (r :: rs) = [(c :: cs).takeWhile (fun x => !pyIsSpace x), r :: rs]
              from rfl] at hoX
            obtain ⟨_, h4⟩ := List.cons.inj hoX
            obtain ⟨_, h5⟩ := List.cons.inj h4
            exact absurd h5 (by simp)

/-! ### Fold-level lemmas for the metrics dict -/

theorem parseMetricsLine_eq (m : List (String × String)) (line : List Char) :
    parseMetricsLine m line =
      (match codeMetricsEntry line with
       | some e => dictSet m e.1 e.2
       | none => m) := by
  unfold parseMetricsLine codeMetricsEntry
  by_cases hskip :
      ((pyStripL line).isEmpty || startsWithL "#".data (pyStripL line)) = true
  · rw [if_pos hskip, if_pos hskip]
  · rw [if_neg hskip, if_neg hskip]
    rcases ho : pySplitOnceL (pyStripL line) with _ | ⟨tok, _ | ⟨rest, _ | _⟩⟩ <;>
      simp only []
    · by_cases hf : isPyFloat ((pySplitWsL rest).getLastD []) = true
      · rw [if_pos hf, if_pos hf]
      · rw [if_neg hf, if_neg hf]

theorem foldl_parseMetricsLine (lines : List (List Char)) :
    ∀ m : List (String × String),
      lines.foldl parseMetricsLine m =
        (lines.filterMap codeMetricsEntry).foldl
          (fun acc e => dictSet acc e.1 e.2) m := by
  induction lines with
  | nil => intro m; rfl
  | cons line rest ih =>
    intro m
    rw [List.foldl_cons, parseMetricsLine_eq m line]
    rcases he : codeMetricsEntry line with _ | e
    · rw [List.filterMap_cons_none he, ih m]
    · rw [List.filterMap_cons_some he, List.foldl_cons, ih (dictSet m e.1 e.2)]

theorem dictGet_dictSet {α : Type} (m : List (String × α)) (k : String) (v : α)
    (n : String) :
    dictGet (dictSet m k v) n = if n = k then some v else dictGet m n := by
  induction m with
  | nil =>
    by_cases h : n = k
    · rw [if_pos h]; unfold dictSet dictGet; rw [if_pos h.symm]
    · rw [if_neg h]; unfold dictSet dictGet
      rw [if_neg (fun he => h he.symm)]
      rfl
  | cons kv rest ih =>
    obtain ⟨k', v'⟩ := kv
    by_cases h1 : k' = k
    · subst h1
      unfold dictSet
      rw [if_pos rfl]
      by_cases h2 : n = k'
      · unfold dictGet; rw [if_pos h2.symm, if_pos h2]
      · unfold dictGet
        rw [if_neg (fun he => h2 he.symm), if_neg h2,
          if_neg (fun he => h2 he.symm)]
    · unfold dictSet
      rw [if_neg h1]
      by_cases h2 : k' = n
      · unfold dictGet
        rw [if_pos h2, if_pos h2, if_neg (fun he => h1 (h2.trans he))]
      · unfold dictGet
        rw [if_neg h2, if_neg h2, ih]

theorem getLast?_cons_eq {α : Type} (a : α) (l : List α) :
    (a :: l).getLast? =
      (match l.getLast? with
       | some x => some x
       | none => some a) := by
  induction l generalizing a with
  | nil => rfl
  | cons b bs ih =>
    rw [List.getLast?_cons_cons, ih b]
    rcases hx : bs.getLast? with _ | x <;> simp [hx]

theorem dictGet_foldl_entries (entries : List (String × String)) :
    ∀ (m : List (String × String)) (n : String),
      dictGet (entries.foldl (fun acc e => dictSet acc e.1 e.2) m) n =
        (match (entries.filter (fun e => e.1 = n)).getLast? with
         | some e => some e.2
         | none => dictGet m n) := by
  induction entries with
  | nil => intro m n; rfl
  | cons e rest ih =>
    intro m n
    rw [List.foldl_cons, ih]
    by_cases hp : e.1 = n
    · rw [List.filter_cons_of_pos (by simpa using hp), getLast?_cons_eq]
      rcases hl : (rest.filter (fun e => e.1 = n)).getLast? with _ | x
      · simp only [hl, dictGet_dictSet]
        rw [if_pos hp.symm]
      · simp only [hl]
    · rw [List.filter_cons_of_neg (by simpa using hp)]
      rcases hl : (rest.filter (fun e => e.1 = n)).getLast? with _ | x
      · simp only [hl, dictGet_dictSet]
        rw [if_neg (fun he : n = e.1 => hp he.symm)]
      · simp only [hl]

/-! ### C7 — line handling of the metrics text -/

/-- Claim C7 as stated is false in one corner: a line whose `#` appears after
leading whitespace is skipped by the parser (it strips each line before the
`#` test), whereas the claim's literal reading treats it as a remaining line
with name `"#"` and value `5`. -/
theorem metricsLineHandling_counterexample :
    _parse_prometheus_metrics "  # 5" = [] ∧
    claimLiteralParse "  # 5" = [("#", "5")] := ⟨rfl, rfl⟩

/-- Claim C7 (amended): the parser skips blank lines and lines whose first
non-whitespace character is `#` (leading whitespace is stripped before the
check); every other line contributes an entry exactly when it has at least
two whitespace-delimited tokens and its last token is numeric, with the
metric name being the first token truncated at the first `{` and the value
the last token; a non-numeric trailing token contributes nothing and is never
an error.  (When the whole input is empty or whitespace the parser returns
the empty mapping.) -/
theorem metricsLineHandling :
    (∀ raw : String, pyStrip raw ≠ "" →
       _parse_prometheus_metrics raw = claimAmendedParse raw) ∧
    (∀ raw : String, pyStrip raw = "" → _parse_prometheus_metrics raw = []) := by
  constructor
  · intro raw h
    have hraw : ¬(raw = "") := fun hr => h (by rw [hr]; rfl)
    unfold _parse_prometheus_metrics claimAmendedParse
    rw [if_neg (by simp [hraw, h])]
    rw [foldl_parseMetricsLine (pySplitlinesL raw.data) []]
    rw [show codeMetricsEntry = claimAmendedEntry from
      funext codeMetricsEntry_eq_claimAmended]
  · intro raw h
    unfold _parse_prometheus_metrics
    rw [if_pos (by simp [h])]

/-- Witness for C7: the amended theorem applied at a small concrete
exposition text and at a whitespace-only input. -/
theorem metricsLineHandling_witness :
    pyStrip "m\x7bl=\"a\"\x7d 1\n# c\nm 2\nbad x" ≠ "" ∧
    _parse_prometheus_metrics "m\x7bl=\"a\"\x7d 1\n# c\nm 2\nbad x" =
      claimAmendedParse "m\x7bl=\"a\"\x7d 1\n# c\nm 2\nbad x" ∧
    pyStrip "  " = "" ∧
    _parse_prometheus_metrics "  " = [] :=
  ⟨by decide, metricsLineHandling.1 _ (by decide), by decide,
   metricsLineHandling.2 "  " (by decide)⟩

/-! ### C10 — later numeric samples overwrite earlier ones -/

/-- Claim C10: for every input with at least one non-whitespace character,
looking a metric name up in the parsed mapping yields exactly the value of
the last parseable line with that name and a numeric trailing token: later
numeric samples overwrite earlier ones, and a line with a non-numeric
trailing token never overwrites an earlier value. -/
theorem metricsLastSampleWins (raw : String) (h : pyStrip raw ≠ "") (n : String) :
    dictGet (_parse_prometheus_metrics raw) n = lastNumericSample raw n := by
  have hraw : ¬(raw = "") := fun hr => h (by rw [hr]; rfl)
  unfold _parse_prometheus_metrics lastNumericSample
  rw [if_neg (by simp [hraw, h])]
  rw [foldl_parseMetricsLine (pySplitlinesL raw.data) [],
    dictGet_foldl_entries]
  rcases hl : (((pySplitlinesL raw.data).filterMap codeMetricsEntry).filter
      (fun e => e.1 = n)).getLast? with _ | x <;> rw [hl] <;> rfl

/-- Witness for C10: the theorem applied at a text where the name `m` occurs
with two numeric samples and a trailing non-numeric one. -/
theorem metricsLastSampleWins_witness :
    pyStrip "m 1\nm 2\nm x" ≠ "" ∧
    dictGet (_parse_prometheus_metrics "m 1\nm 2\nm x") "m" =
      lastNumericSample "m 1\nm 2\nm x" "m" ∧
    lastNumericSample "m 1\nm 2\nm x" "m" = some "2" :=
  ⟨by decide, metricsLastSampleWins "m 1\nm 2\nm x" (by decide) "m", by decide⟩

/-! ### C3 — entering the token prompt and stale pending actions -/

/-- Claim C3 as stated is false: entering `EnterToken` via provider selection
does not clear a stale pending token action.  Starting from a session that
entered the token-update flow (`token_action = "update"`), two successive
provider selections leave `token_action = "update"`, not the `"add"` that a
fresh provider-selection entry establishes. -/
theorem providerSelectionPendingAction_counterexample :
    (let ud0 := (token_update_effect {} "token_update_hetzner" true).1
     let step1 := handle_provider_selection ud0 "prov_linode" false
     let step2 := handle_provider_selection step1.1 "prov_hetzner" false
     ud0.token_action = some "update" ∧
     step1.2 = ENTER_TOKEN ∧ step2.2 = ENTER_TOKEN ∧
     step2.1.provider = some "hetzner" ∧
     step2.1.token_action = some "update" ∧
     step2.1.token_action ≠ some "add") := by decide

/-- Claim C3 (amended): after entering `EnterToken` twice in succession via
provider selection, the selected provider is the one from the most recent
entry, but the pending token action is `get("token_action") or "add"` of the
session as it was before the first entry: a pre-existing non-empty
`token_action` survives both entries, and only an unset (or empty) one
defaults to `"add"`. -/
theorem providerSelectionPendingAction (ud : UserData) (d1 d2 : String) :
    (let step1 := handle_provider_selection ud d1 false
     let step2 := handle_provider_selection step1.1 d2 false
     step1.2 = ENTER_TOKEN ∧ step2.2 = ENTER_TOKEN ∧
     step2.1.provider = some (pyReplaceEmpty d2 "prov_") ∧
     step2.1.token_action = some (pyOrStr ud.token_action "add")) := by
  refine ⟨rfl, rfl, rfl, ?_⟩
  show some (pyOrStr (some (pyOrStr ud.token_action "add")) "add") = _
  rcases ud.token_action with _ | s
  · rfl
  · simp only [pyOrStr]
    by_cases hs : s = ""
    · simp [hs]
    · simp [hs]

end HopeVpnBot
